import Mathlib

set_option autoImplicit false

namespace AirEnv

/-! Shallow embedding of `src/isaac_env/air_env_data.py` (class `AIR_RLTaskEnv`):
the readiness classifier `update_env_state`, the grasp-candidate pipeline
`get_grasp_poses_from_hdf5`, the outer `step` loop, the reward bookkeeping
`_record_reward`, the reset path `_summerize_and_reset` / `_reset_robot`, the
CSV export `recorder`, and the sensing entry point `get_grasp_pose_demo`.
Real-valued tensors are embedded over `ℚ`; batched tensors become lists indexed
by world. -/

/-- Modelled from the spec: the `STATE_MACHINE` name-to-code table is defined in
the `isaac_env` package, which is not among the available source files.  The
spec lists the discrete states `INIT, INIT_ENV, START, CHOOSE_OBJECT, APPROACH,
GRASP, LIFT` and says every world starts in `START`; the source constructs
`sm_state` filled with `2`, fixing `START = 2` and the listed order `0..6`. -/
def STATE_MACHINE : String → Int
  | "init" => 0
  | "init_env" => 1
  | "start" => 2
  | "choose_object" => 3
  | "approach" => 4
  | "grasp" => 5
  | "lift" => 6
  | _ => -1

/-- Position (relative to the robot base, from `_get_obj_pos`) and raw velocity
channels (from `_get_obj_vel`, i.e. `root_state_w[:, 7:]`) of one tracked
object. -/
structure ObjState where
  px : ℚ
  py : ℚ
  pz : ℚ
  vel : List ℚ
deriving Repr, DecidableEq

/-- Thresholds and workspace bounds (`obj_height_limit`, `obj_vel_limit`,
`ee_goals_default[0]`, `ee_goals_default[1]`) that the source imports from the
`isaac_env` configuration; kept abstract as parameters. -/
structure EnvParams where
  obj_height_limit : ℚ
  obj_vel_limit : ℚ
  ws_x_lo : ℚ
  ws_x_hi : ℚ
  ws_y_lo : ℚ
  ws_y_hi : ℚ

/-- Mean of the absolute values of the components, as in
`torch.mean(torch.abs(obj_vel_b), -1)` filling `object_pos[:, id_obj, -1]`. -/
def meanAbs (v : List ℚ) : ℚ :=
  (v.map (fun c => |c|)).sum / v.length

/-- Reachability test of `update_env_state`: height below `obj_height_limit` and
above `-5e-2`, and x, y strictly inside the `ee_goals_default` box. -/
def obj_reachable (P : EnvParams) (o : ObjState) : Bool :=
  decide (o.pz < P.obj_height_limit) && decide (o.pz > -(5/100 : ℚ)) &&
    decide (o.px > P.ws_x_lo) && decide (o.px < P.ws_x_hi) &&
    decide (o.py > P.ws_y_lo) && decide (o.py < P.ws_y_hi)

/-- Stability test of `update_env_state`: mean absolute velocity below
`obj_vel_limit`, then or-ed with the negation of `obj_reachable`
(`self.obj_stable | ~self.obj_reachable`). -/
def obj_stable (P : EnvParams) (o : ObjState) : Bool :=
  decide (meanAbs o.vel < P.obj_vel_limit) || !obj_reachable P o

/-- Observed state of one world entering `update_env_state`: its tracked objects
and its accumulated `sm_wait_time`. -/
structure WorldObs where
  objs : List ObjState
  sm_wait_time : ℚ

/-- World-level reachability, `self.obj_reachable.any(dim=1)`. -/
def env_reachable (P : EnvParams) (w : WorldObs) : Bool :=
  w.objs.any (obj_reachable P)

/-- World-level readiness, `self.obj_stable.all(dim=1) & self.env_reachable`
and-ed with `self.sm_wait_time > 1.0`. -/
def env_reachable_and_stable (P : EnvParams) (w : WorldObs) : Bool :=
  (w.objs.all (obj_stable P) && env_reachable P w) && decide (w.sm_wait_time > 1)

/-- C1: every tick, `update_env_state` classifies an object as reachable iff its
height is below the height limit, above the lower tolerance `-5e-2`, and its x
and y lie inside the workspace bounds; as stable iff its mean absolute velocity
is below the velocity limit or it is not reachable; and raises the world-level
ready signal iff every object is stable, some object is reachable, and the
world's `sm_wait_time` exceeds the minimum settle time of one second. -/
theorem update_env_state_spec (P : EnvParams) (w : WorldObs) :
    (∀ o : ObjState,
      obj_reachable P o = true ↔
        o.pz < P.obj_height_limit ∧ -(5/100 : ℚ) < o.pz ∧
          P.ws_x_lo < o.px ∧ o.px < P.ws_x_hi ∧ P.ws_y_lo < o.py ∧ o.py < P.ws_y_hi) ∧
    (∀ o : ObjState,
      obj_stable P o = true ↔
        meanAbs o.vel < P.obj_vel_limit ∨ obj_reachable P o = false) ∧
    (env_reachable_and_stable P w = true ↔
      (∀ o ∈ w.objs, obj_stable P o = true) ∧
        (∃ o ∈ w.objs, obj_reachable P o = true) ∧ 1 < w.sm_wait_time) := by
  refine ⟨fun o => ?_, fun o => ?_, ?_⟩
  · simp [obj_reachable, and_assoc, gt_iff_lt]
  · simp [obj_stable, Bool.not_eq_true']
  · simp [env_reachable_and_stable, env_reachable, List.all_eq_true,
      List.any_eq_true, and_assoc, gt_iff_lt]

/-- Vector of three rational coordinates, standing for a float tensor of shape
`(3,)`. -/
structure Vec3 where
  x : ℚ
  y : ℚ
  z : ℚ
deriving Repr, DecidableEq

instance : Add Vec3 := ⟨fun a b => ⟨a.x + b.x, a.y + b.y, a.z + b.z⟩⟩

instance : Sub Vec3 := ⟨fun a b => ⟨a.x - b.x, a.y - b.y, a.z - b.z⟩⟩

@[simp] theorem Vec3.add_def (a b : Vec3) :
    a + b = ⟨a.x + b.x, a.y + b.y, a.z + b.z⟩ := rfl

@[simp] theorem Vec3.sub_def (a b : Vec3) :
    a - b = ⟨a.x - b.x, a.y - b.y, a.z - b.z⟩ := rfl

/-- Scalar multiple of a vector. -/
def Vec3.smul (c : ℚ) (v : Vec3) : Vec3 :=
  ⟨c * v.x, c * v.y, c * v.z⟩

/-- Cross product of two vectors. -/
def Vec3.cross (a b : Vec3) : Vec3 :=
  ⟨a.y * b.z - a.z * b.y, a.z * b.x - a.x * b.z, a.x * b.y - a.y * b.x⟩

/-- Quaternion in the `(w, x, y, z)` convention used by the Isaac Lab math
helpers the source imports. -/
structure Quat where
  w : ℚ
  x : ℚ
  y : ℚ
  z : ℚ
deriving Repr, DecidableEq

/-- Hamilton product `quat_mul` of `omni.isaac.lab.utils.math`. -/
def quat_mul (p q : Quat) : Quat :=
  ⟨p.w * q.w - p.x * q.x - p.y * q.y - p.z * q.z,
   p.w * q.x + p.x * q.w + p.y * q.z - p.z * q.y,
   p.w * q.y - p.x * q.z + p.y * q.w + p.z * q.x,
   p.w * q.z + p.x * q.y - p.y * q.x + p.z * q.w⟩

/-- Imaginary part of a quaternion as a vector. -/
def Quat.vec (q : Quat) : Vec3 :=
  ⟨q.x, q.y, q.z⟩

/-- Rotation of a vector by a unit quaternion, `quat_apply` of
`omni.isaac.lab.utils.math`: with `u` the imaginary part and
`t = 2 (u × v)`, the result is `v + w t + u × t`. -/
def quat_apply (q : Quat) (v : Vec3) : Vec3 :=
  let t := Vec3.smul 2 (Vec3.cross q.vec v)
  v + Vec3.smul q.w t + Vec3.cross q.vec t

/-- Conjugate quaternion. -/
def Quat.conj (q : Quat) : Quat :=
  ⟨q.w, -q.x, -q.y, -q.z⟩

/-- Quaternion with vector part `v` and zero real part. -/
def Quat.ofVec (v : Vec3) : Quat :=
  ⟨0, v.x, v.y, v.z⟩

/-- For a unit quaternion, `quat_apply` agrees with the textbook rotation
`q v q*`, so composing with it is genuinely a rotation action. -/
theorem quat_apply_eq_conjugation (q : Quat) (v : Vec3)
    (h : q.w ^ 2 + q.x ^ 2 + q.y ^ 2 + q.z ^ 2 = 1) :
    quat_apply q v = (quat_mul (quat_mul q (Quat.ofVec v)) q.conj).vec := by
  obtain ⟨w, x, y, z⟩ := q
  obtain ⟨vx, vy, vz⟩ := v
  simp only [quat_apply, quat_mul, Quat.conj, Quat.ofVec, Quat.vec, Vec3.smul,
    Vec3.cross, Vec3.add_def, Vec3.mk.injEq] at *
  refine ⟨?_, ?_, ?_⟩
  · linear_combination -vx * h
  · linear_combination -vy * h
  · linear_combination -vz * h

/-- Pose as position plus orientation quaternion, the `(pos, quat)` pairs the
source passes to `combine_frame_transforms`. -/
structure Pose where
  pos : Vec3
  quat : Quat
deriving Repr, DecidableEq

/-- Rigid transform composition `combine_frame_transforms` of
`omni.isaac.lab.utils.math`: rotate the child position by the parent
orientation, translate by the parent position, and compose orientations. -/
def combine_frame_transforms (p c : Pose) : Pose :=
  ⟨p.pos + quat_apply p.quat c.pos, quat_mul p.quat c.quat⟩

/-- Grasp candidate record, one row `grasp` of
`grasp_dict["paralleljaw_pregrasp_transform"]`: approach vector `grasp[0:3]`,
baseline vector `grasp[3:6]`, contact point `grasp[6:9]` in centimeters, finger
separation `grasp[9]`, the local orientation that the external
`from_contact_to_6D` derives from the contact geometry, and the candidate's
entry of `grasp_dict["paralleljaw_pregrasp_score"]`. -/
structure Grasp where
  approach_vec : Vec3
  baseline : Vec3
  contact : Vec3
  width : ℚ
  pregrasp_quat : Quat
  score : ℚ
deriving Repr, DecidableEq

/-- Contact point in meters, `contact_pt = torch.tensor(grasp[6:9]) / 100`. -/
def contact_pt (g : Grasp) : Vec3 :=
  Vec3.smul (1/100) g.contact

/-- Second finger contact point,
`pt2 = contact_pt + baseline * grasp[9] / 100`. -/
def pt2 (g : Grasp) : Vec3 :=
  contact_pt g + Vec3.smul (g.width / 100) g.baseline

/-- Local pre-grasp position, `grasp_pos = pt2 - approach_vec * 0.1`. -/
def grasp_pos_local (g : Grasp) : Vec3 :=
  pt2 g - Vec3.smul (1/10) g.approach_vec

/-- Midpoint of the two contact points, `mid_pt = (contact_pt + pt2) / 2`
(computed in the source only for visualization). -/
def mid_pt_local (g : Grasp) : Vec3 :=
  Vec3.smul (1/2) (contact_pt g + pt2 g)

/-- World-frame grasp pose of one candidate, the loop body of
`get_grasp_poses_from_hdf5`: the local pose `(grasp_pos, from_contact_to_6D
orientation)` composed with the object's current world pose by
`combine_frame_transforms`. -/
def grasp_world (obj_pose_w : Pose) (g : Grasp) : Pose :=
  combine_frame_transforms obj_pose_w ⟨grasp_pos_local g, g.pregrasp_quat⟩

/-- Pre-grasp position as the spec words it: stepping back from the midpoint of
the two contact points along the approach vector by the standoff distance.
Stated only to compare against `grasp_pos_local`, which the source computes. -/
def grasp_pos_spec_midpoint (g : Grasp) : Vec3 :=
  mid_pt_local g - Vec3.smul (1/10) g.approach_vec

/-- Identity pose: zero translation, unit quaternion. -/
def poseId : Pose :=
  ⟨⟨0, 0, 0⟩, ⟨1, 0, 0, 0⟩⟩

/-- Concrete grasp candidate separating the code's pre-grasp rule from the
spec's midpoint rule: contact at the origin, baseline along x, separation 100
(one meter), approach along z. -/
def graspEx : Grasp :=
  ⟨⟨0, 0, 1⟩, ⟨1, 0, 0⟩, ⟨0, 0, 0⟩, 100, ⟨1, 0, 0, 0⟩, 0⟩

/-- C2 counterexample: at `graspEx` the code's pre-grasp position steps back
from the second contact point `pt2`, giving `(1, 0, -1/10)`, while stepping
back from the midpoint would give `(1/2, 0, -1/10)`; with the object at the
identity pose the produced world grasp position is the `pt2`-based one, so the
claim's midpoint wording is false on the code. -/
theorem grasp_pregrasp_counterexample :
    (grasp_world poseId graspEx).pos = ⟨1, 0, -(1/10)⟩ ∧
      grasp_pos_spec_midpoint graspEx = ⟨1/2, 0, -(1/10)⟩ ∧
      (grasp_world poseId graspEx).pos ≠ grasp_pos_spec_midpoint graspEx := by
  refine ⟨?_, ?_, ?_⟩ <;>
    simp only [grasp_world, combine_frame_transforms, quat_apply, quat_mul,
      grasp_pos_local, pt2, contact_pt, mid_pt_local, grasp_pos_spec_midpoint,
      Vec3.smul, Vec3.cross, Quat.vec, poseId, graspEx, Vec3.add_def,
      Vec3.sub_def, Vec3.mk.injEq, ne_eq] <;>
    norm_num

/-- C2 amended: the second contact point is the contact point plus the baseline
scaled by the separation parameter (converted to meters); the pre-grasp
position steps back from the second contact point `pt2` (not the midpoint)
along the approach vector by the fixed standoff `0.1`; and the local pose is
composed with the object's world pose by standard rigid transform composition,
the position being rotated by the object orientation and then translated, never
plainly added. -/
theorem grasp_pose_pipeline (op : Pose) (g : Grasp) :
    pt2 g = contact_pt g + Vec3.smul (g.width / 100) g.baseline ∧
    grasp_pos_local g = pt2 g - Vec3.smul (1/10) g.approach_vec ∧
    (grasp_world op g).pos = op.pos + quat_apply op.quat (grasp_pos_local g) ∧
    (grasp_world op g).quat = quat_mul op.quat g.pregrasp_quat := by
  exact ⟨rfl, rfl, rfl, rfl⟩

/-- Python `max` over a nonempty list, scanning left to right and keeping the
larger value; on a tie the earlier value is kept (the value is the same). -/
def pyMax : ℚ → List ℚ → ℚ
  | a, [] => a
  | a, b :: t => pyMax (max a b) t

/-- Python `list.index`: position of the first occurrence of `x`. -/
def indexOfQ (x : ℚ) : List ℚ → ℕ
  | [] => 0
  | a :: t => if a = x then 0 else indexOfQ x t + 1

theorem pyMax_mem (l : List ℚ) : ∀ a : ℚ, pyMax a l ∈ a :: l := by
  induction l with
  | nil => intro a; simp [pyMax]
  | cons b t ih =>
    intro a
    have h := ih (max a b)
    show pyMax (max a b) t ∈ a :: b :: t
    rcases List.mem_cons.mp h with h1 | h1
    · rw [h1]
      rcases max_choice a b with hm | hm <;> rw [hm] <;> simp
    · exact List.mem_cons_of_mem _ (List.mem_cons_of_mem _ h1)

theorem le_pyMax_left (a : ℚ) (l : List ℚ) : a ≤ pyMax a l := by
  induction l generalizing a with
  | nil => simp [pyMax]
  | cons b t ih => exact le_trans (le_max_left a b) (ih (max a b))

theorem le_pyMax_of_mem (l : List ℚ) : ∀ a x : ℚ, x ∈ l → x ≤ pyMax a l := by
  induction l with
  | nil => intro a x hx; cases hx
  | cons b t ih =>
    intro a x hx
    rcases List.mem_cons.mp hx with h | h
    · subst h
      exact le_trans (le_max_right a x) (le_pyMax_left (max a x) t)
    · exact ih (max a b) x h

theorem indexOfQ_spec (l : List ℚ) : ∀ x : ℚ, x ∈ l →
    l.get? (indexOfQ x l) = some x ∧
      ∀ i y, i < indexOfQ x l → l.get? i = some y → y ≠ x := by
  induction l with
  | nil => intro x hx; cases hx
  | cons a t ih =>
    intro x hx
    by_cases hax : a = x
    · refine ⟨by simp [indexOfQ, hax], fun i y hi _ => ?_⟩
      simp [indexOfQ, hax] at hi
    · have hxt : x ∈ t := by
        rcases List.mem_cons.mp hx with h | h
        · exact absurd h.symm hax
        · exact h
      have hidx : indexOfQ x (a :: t) = indexOfQ x t + 1 := by simp [indexOfQ, hax]
      obtain ⟨h1, h2⟩ := ih x hxt
      refine ⟨by rw [hidx]; simpa using h1, fun i y hi hget => ?_⟩
      rw [hidx] at hi
      cases i with
      | zero =>
        simp only [List.get?_cons_zero, Option.some.injEq] at hget
        rw [← hget]; exact hax
      | succ j =>
        exact h2 j y (Nat.lt_of_succ_lt_succ hi) (by simpa using hget)

/-- Selection tail of `get_grasp_poses_from_hdf5`: build the per-candidate
world poses, then index the stacked poses at the first position of the maximal
`paralleljaw_pregrasp_score`.  On an empty candidate list `torch.stack` and
`max` both raise, modeled as `none`. -/
def get_grasp_poses_from_hdf5 (obj_pose_w : Pose) (grasps : List Grasp) :
    Option Pose :=
  match grasps with
  | [] => none
  | g :: gs =>
    let grasp_poses := (g :: gs).map (grasp_world obj_pose_w)
    let scores := (g :: gs).map Grasp.score
    grasp_poses.get? (indexOfQ (pyMax g.score (gs.map Grasp.score)) scores)

/-- C3: on a nonempty candidate list with a fixed object pose, the selector
returns the world pose built from a candidate `gj` whose score is maximal and
which is the first candidate attaining that score; being a plain function of
its inputs, repeated calls on the same inputs return the same pose. -/
theorem grasp_selection_argmax (obj_pose_w : Pose) (g : Grasp) (gs : List Grasp) :
    ∃ j gj, (g :: gs).get? j = some gj ∧
      get_grasp_poses_from_hdf5 obj_pose_w (g :: gs) =
        some (grasp_world obj_pose_w gj) ∧
      (∀ i gi, (g :: gs).get? i = some gi → gi.score ≤ gj.score) ∧
      (∀ i gi, i < j → (g :: gs).get? i = some gi → gi.score < gj.score) := by
  set M := pyMax g.score (gs.map Grasp.score) with hM
  have hmem : M ∈ (g :: gs).map Grasp.score := by
    simpa using pyMax_mem (gs.map Grasp.score) g.score
  obtain ⟨h1, h2⟩ := indexOfQ_spec ((g :: gs).map Grasp.score) M hmem
  set j := indexOfQ M ((g :: gs).map Grasp.score) with hj
  rw [List.get?_map] at h1
  obtain ⟨gj, hgj, hsc⟩ := Option.map_eq_some'.mp h1
  have hle : ∀ i gi, (g :: gs).get? i = some gi → gi.score ≤ M := by
    intro i gi hget
    have : gi ∈ g :: gs := List.get?_mem hget
    rcases List.mem_cons.mp this with h | h
    · rw [h]; exact le_pyMax_left g.score (gs.map Grasp.score)
    · exact le_pyMax_of_mem (gs.map Grasp.score) g.score gi.score
        (List.mem_map_of_mem Grasp.score h)
  refine ⟨j, gj, hgj, ?_, ?_, ?_⟩
  · show ((g :: gs).map (grasp_world obj_pose_w)).get? j =
      some (grasp_world obj_pose_w gj)
    rw [List.get?_map, hgj]
    rfl
  · intro i gi hget
    rw [hsc]
    exact hle i gi hget
  · intro i gi hlt hget
    have hne : gi.score ≠ M := by
      refine h2 i gi.score hlt ?_
      rw [List.get?_map, hget]
      rfl
    rw [hsc]
    exact lt_of_le_of_ne (hle i gi hget) hne

/-- Call of `get_grasp_poses_from_hdf5` seen together with the caller's
state-machine state: the source has no handler around the call and the
function itself never writes `sm_state`, so the state rides through unchanged
and an empty candidate list surfaces as failure of the whole call. -/
def call_get_grasp_poses (sm_state : Int) (obj_pose_w : Pose)
    (grasps : List Grasp) : Option Pose × Int :=
  (get_grasp_poses_from_hdf5 obj_pose_w grasps, sm_state)

/-- C4 counterexample: with zero candidates and a world sitting in
`CHOOSE_OBJECT`, the call fails (the `torch.stack`/`max` on an empty list, not
a structured `NoCandidatesError`) and the world's state is not forced to
`START` — it is left exactly where it was. -/
theorem no_candidates_counterexample :
    (call_get_grasp_poses (STATE_MACHINE "choose_object") poseId []).1 = none ∧
      (call_get_grasp_poses (STATE_MACHINE "choose_object") poseId []).2 ≠
        STATE_MACHINE "start" := by
  refine ⟨rfl, by decide⟩

/-- C4 amended: when the grasp library returns zero candidates the call fails
with an unhandled exception (`torch.stack` and `max` over an empty list,
modeled as `none`) — there is no `NoCandidatesError` type, no handler, the
world's state-machine state is left unchanged rather than forced to `START`,
and no cooldown exclusion of the object exists anywhere in the code. -/
theorem no_candidates_state_unchanged (s : Int) (op : Pose) :
    call_get_grasp_poses s op [] = (none, s) := rfl

/-- Per-world policy-inference flag recomputed at the bottom of the `step` loop
body: `self.sm_state == STATE_MACHINE["choose_object"]`. -/
def policy_inference_criteria (sm_state : List Int) : List Bool :=
  sm_state.map (fun s => s == STATE_MACHINE "choose_object")

/-- Boolean `torch.Tensor.any()`: true iff some entry is true; false for the
empty tensor (the `step` default argument `torch.tensor([])`). -/
def tensor_any (l : List Bool) : Bool :=
  l.any id

/-- Outer `step` loop of the source: while the criteria tensor has no true
entry, run one simulation tick (abstracted as `tick`: state-machine advance,
controller, physics step, resets) and recompute the criteria from the new
states.  `fuel` bounds the iteration to keep the embedding total; `none` stands
for not having returned within `fuel` ticks. -/
def step_loop (tick : List Int → List Int) (crit : List Bool) (sm : List Int) :
    ℕ → Option (List Int)
  | 0 => none
  | fuel + 1 =>
    if tensor_any crit then some sm
    else step_loop tick (policy_inference_criteria (tick sm)) (tick sm) fuel

theorem criteria_any_iff (l : List Int) :
    tensor_any (policy_inference_criteria l) = true ↔
      ∃ s ∈ l, s = STATE_MACHINE "choose_object" := by
  simp [tensor_any, policy_inference_criteria, List.any_eq_true]

/-- C5 counterexample: with two worlds in states `[CHOOSE_OBJECT, START]` the
loop's blocking predicate is already satisfied and `step` returns control
upward at once, although the world in `START` has not reached `CHOOSE_OBJECT`:
the exit predicate is an `any`, not an `all`. -/
theorem step_blocking_counterexample :
    step_loop (fun sm => sm) (policy_inference_criteria [3, 2]) [3, 2] 1 =
        some [3, 2] ∧
      ¬ ∀ s ∈ [(3 : Int), 2], s = STATE_MACHINE "choose_object" := by
  refine ⟨by decide, by decide⟩

/-- C5 amended: the outer `step` loop returns control upward exactly when the
criteria tensor has at least one true entry — initially the caller-supplied
tensor, afterwards the recomputed per-world flag `sm_state == CHOOSE_OBJECT` —
so it blocks until SOME world reaches `CHOOSE_OBJECT` (not until every flagged
world does) and returns immediately once one world is there. -/
theorem step_loop_exit (tick : List Int → List Int) (crit : List Bool)
    (sm : List Int) (fuel : ℕ) :
    (∀ out, step_loop tick crit sm fuel = some out →
      (out = sm ∧ tensor_any crit = true) ∨
        ∃ s ∈ out, s = STATE_MACHINE "choose_object") ∧
      (tensor_any crit = true → step_loop tick crit sm (fuel + 1) = some sm) := by
  constructor
  · induction fuel generalizing crit sm with
    | zero =>
      intro out h
      exact absurd h (by simp [step_loop])
    | succ n ih =>
      intro out h
      by_cases hc : tensor_any crit = true
      · refine Or.inl ⟨?_, hc⟩
        rw [step_loop, if_pos hc] at h
        exact (Option.some.inj h).symm
      · rw [step_loop, if_neg hc] at h
        rcases ih (policy_inference_criteria (tick sm)) (tick sm) out h with
          ⟨rfl, hcrit⟩ | hex
        · exact Or.inr ((criteria_any_iff (tick sm)).mp hcrit)
        · exact Or.inr hex
  · intro hc
    rw [step_loop, if_pos hc]

/-- Per-world slice of the tensors `_record_reward` touches: `reward_buf[i]`,
`judge_reward[i]`, `sm_state[i]`, `obj_chosen[i]`, the two `epi_step_count[i]`
counters, and the world's slab `reward_recorder[i]` of the
`(num_envs, 100, step_total)` ledger. -/
structure WorldRec where
  reward_buf : ℚ
  judge_reward : Bool
  sm_state : Int
  obj_chosen : Int
  epi : ℕ
  stp : ℕ
  recorder : List (List ℚ)
deriving Repr, DecidableEq

/-- Checked update `recorder[e][s] += v` with torch indexing semantics: `none`
models the `IndexError` an out-of-range episode or step index raises; nothing
clamps the indices. -/
def writeCell (led : List (List ℚ)) (e s : ℕ) (v : ℚ) :
    Option (List (List ℚ)) :=
  match led.get? e with
  | none => none
  | some row =>
    match row.get? s with
    | none => none
    | some old => some (led.set e (row.set s (old + v)))

/-- Truthiness of the guard `if env_success and judge_reward[i]`: a nonzero
`reward_buf` entry and a true judge flag. -/
def grasp_success (w : WorldRec) : Bool :=
  decide (w.reward_buf ≠ 0) && w.judge_reward

/-- Body of `_record_reward` over the worlds from index `i` on: on a successful
world add `reward_buf[i]` into the ledger cell `[epi, stp]`, emit the
relocation of the chosen object (the `write_root_state_to_sim` call, recorded
as the pair of world index and `obj_chosen`) and the printed success line
(world, episode, step), then force `sm_state` to `INIT` and clear `obj_chosen`
to `-1`; on a failed world touch nothing. -/
def record_reward_aux : ℕ → List WorldRec →
    Option (List WorldRec × List (ℕ × Int) × List (ℕ × ℕ × ℕ))
  | _, [] => some ([], [], [])
  | i, w :: ws =>
    if grasp_success w then
      match writeCell w.recorder w.epi w.stp w.reward_buf with
      | none => none
      | some led =>
        match record_reward_aux (i + 1) ws with
        | none => none
        | some (ws2, rel, logs) =>
          some ({ w with
                    recorder := led
                    sm_state := STATE_MACHINE "init"
                    obj_chosen := -1 } :: ws2,
                (i, w.obj_chosen) :: rel, (i, w.epi, w.stp) :: logs)
    else
      match record_reward_aux (i + 1) ws with
      | none => none
      | some (ws2, rel, logs) => some (w :: ws2, rel, logs)

/-- The `_record_reward` pass over all worlds, returning the updated worlds,
the relocation side effects and the success log lines. -/
def record_reward (ws : List WorldRec) :
    Option (List WorldRec × List (ℕ × Int) × List (ℕ × ℕ × ℕ)) :=
  record_reward_aux 0 ws

theorem record_reward_aux_spec (ws : List WorldRec) :
    ∀ (k : ℕ) out rel logs, record_reward_aux k ws = some (out, rel, logs) →
      ∀ i w, ws.get? i = some w →
        (grasp_success w = true →
          ∃ led, writeCell w.recorder w.epi w.stp w.reward_buf = some led ∧
            out.get? i = some { w with
              recorder := led
              sm_state := STATE_MACHINE "init"
              obj_chosen := -1 } ∧
            (k + i, w.obj_chosen) ∈ rel ∧ (k + i, w.epi, w.stp) ∈ logs) ∧
        (grasp_success w = false → out.get? i = some w) := by
  induction ws with
  | nil =>
    intro k out rel logs _ i w hw
    simp at hw
  | cons w0 ws' ih =>
    intro k out rel logs h i w hw
    rw [record_reward_aux] at h
    split at h
    next hs =>
      split at h
      next => cases h
      next led hw0 =>
        split at h
        next => cases h
        next ws2 rel' logs' hrec =>
          simp only [Option.some.injEq, Prod.mk.injEq] at h
          obtain ⟨h1, h2, h3⟩ := h
          cases i with
          | zero =>
            obtain rfl : w0 = w := Option.some.inj hw
            refine ⟨fun _ => ⟨led, hw0, ?_, ?_, ?_⟩, fun hfail => ?_⟩
            · rw [← h1]; rfl
            · rw [← h2]; simp
            · rw [← h3]; simp
            · rw [hfail] at hs; cases hs
          | succ j =>
            have hw' : ws'.get? j = some w := by simpa using hw
            have hrest := ih (k + 1) ws2 rel' logs' hrec j w hw'
            refine ⟨fun hsucc => ?_, fun hfail => ?_⟩
            · obtain ⟨led2, ha, hb, hc, hd⟩ := hrest.1 hsucc
              have heq : k + 1 + j = k + (j + 1) := by omega
              refine ⟨led2, ha, ?_, ?_, ?_⟩
              · rw [← h1]; simpa using hb
              · rw [← h2]
                rw [heq] at hc
                exact List.mem_cons_of_mem _ hc
              · rw [← h3]
                rw [heq] at hd
                exact List.mem_cons_of_mem _ hd
            · rw [← h1]
              simpa using hrest.2 hfail
    next hs =>
      split at h
      next => cases h
      next ws2 rel' logs' hrec =>
        simp only [Option.some.injEq, Prod.mk.injEq] at h
        obtain ⟨h1, h2, h3⟩ := h
        cases i with
        | zero =>
          obtain rfl : w0 = w := Option.some.inj hw
          refine ⟨fun hsucc => absurd hsucc hs, fun _ => ?_⟩
          rw [← h1]; rfl
        | succ j =>
          have hw' : ws'.get? j = some w := by simpa using hw
          have hrest := ih (k + 1) ws2 rel' logs' hrec j w hw'
          refine ⟨fun hsucc => ?_, fun hfail => ?_⟩
          · obtain ⟨led2, ha, hb, hc, hd⟩ := hrest.1 hsucc
            have heq : k + 1 + j = k + (j + 1) := by omega
            refine ⟨led2, ha, ?_, ?_, ?_⟩
            · rw [← h1]; simpa using hb
            · rw [← h2]; rw [heq] at hc; exact hc
            · rw [← h3]; rw [heq] at hd; exact hd
          · rw [← h1]
            simpa using hrest.2 hfail

/-- C6 amended: whenever `_record_reward` runs to completion, every world whose
outcome is successful (`reward_buf` nonzero and `judge_reward` true) has its
ledger cell at `[episode, step]` incremented by its `reward_buf` entry, a
success log line emitted, the relocation of its chosen object issued, its
`obj_chosen` cleared to `-1` and its state forced to `INIT`; a world whose
outcome is a failure is left completely unchanged — `_record_reward` does not
force its state to `INIT`. -/
theorem record_reward_spec (ws out : List WorldRec) (rel : List (ℕ × Int))
    (logs : List (ℕ × ℕ × ℕ)) (h : record_reward ws = some (out, rel, logs))
    (i : ℕ) (w : WorldRec) (hw : ws.get? i = some w) :
    (grasp_success w = true →
      ∃ led, writeCell w.recorder w.epi w.stp w.reward_buf = some led ∧
        out.get? i = some { w with
          recorder := led
          sm_state := STATE_MACHINE "init"
          obj_chosen := -1 } ∧
        (i, w.obj_chosen) ∈ rel ∧ (i, w.epi, w.stp) ∈ logs) ∧
    (grasp_success w = false → out.get? i = some w) := by
  have hk := record_reward_aux_spec ws 0 out rel logs h i w hw
  simpa using hk

/-- Concrete world whose grasp attempt failed (`judge_reward` false) while it
sits in `LIFT`. -/
def wFail : WorldRec :=
  ⟨1, false, 6, 5, 0, 0, [[0]]⟩

theorem grasp_success_wFail : grasp_success wFail = false := by
  simp [grasp_success, wFail]

/-- C6 counterexample: on a failed outcome `_record_reward` leaves the world
exactly as it was — here a world in `LIFT` stays in `LIFT` with its ledger,
counters and chosen object untouched, and is not forced to `INIT` as the claim
states. -/
theorem record_failure_counterexample :
    record_reward [wFail] = some ([wFail], [], []) ∧
      wFail.sm_state = STATE_MACHINE "lift" ∧
      wFail.sm_state ≠ STATE_MACHINE "init" := by
  refine ⟨?_, by decide, by decide⟩
  simp [record_reward, record_reward_aux, grasp_success_wFail]

/-- C6 witness: the amended theorem applied to the one-world batch `[wFail]`. -/
theorem record_reward_spec_witness :
    (grasp_success wFail = true →
      ∃ led, writeCell wFail.recorder wFail.epi wFail.stp wFail.reward_buf =
          some led ∧
        ([wFail] : List WorldRec).get? 0 = some { wFail with
          recorder := led
          sm_state := STATE_MACHINE "init"
          obj_chosen := -1 } ∧
        (0, wFail.obj_chosen) ∈ ([] : List (ℕ × Int)) ∧
        (0, wFail.epi, wFail.stp) ∈ ([] : List (ℕ × ℕ × ℕ))) ∧
    (grasp_success wFail = false → ([wFail] : List WorldRec).get? 0 = some wFail) :=
  record_reward_spec [wFail] [wFail] [] []
    (by simp [record_reward, record_reward_aux, grasp_success_wFail]) 0 wFail rfl

/-- C10: per world the ledger is a fixed table of 100 episodes by `step_total`
steps; a ledger write lands in bounds — updating exactly the addressed cell —
precisely under the precondition that the episode index is below 100 and the
step index below `step_total`, and nothing clamps the episode index: at an
episode index of 100 or more the write fails (torch raises `IndexError`), so
every ledger write needs the invariant as a hypothesis. -/
theorem ledger_write_inbounds (led : List (List ℚ)) (stepT : ℕ) (e s : ℕ)
    (v : ℚ) (hlen : led.length = 100)
    (hrow : ∀ row ∈ led, row.length = stepT) :
    (e < 100 → s < stepT →
      ∃ row old led2, led.get? e = some row ∧ row.get? s = some old ∧
        writeCell led e s v = some led2 ∧
        led2 = led.set e (row.set s (old + v))) ∧
    (100 ≤ e → writeCell led e s v = none) ∧
    (stepT ≤ s → writeCell led e s v = none) := by
  refine ⟨?_, ?_, ?_⟩
  · intro he hs
    cases hge : led.get? e with
    | none =>
      have hx := List.get?_eq_none.mp hge
      omega
    | some row =>
      have hrl : row.length = stepT := hrow row (List.get?_mem hge)
      cases hgs : row.get? s with
      | none =>
        have hx := List.get?_eq_none.mp hgs
        omega
      | some old =>
        have hwc : writeCell led e s v =
            some (led.set e (row.set s (old + v))) := by
          unfold writeCell
          simp only [hge, hgs]
        exact ⟨row, old, led.set e (row.set s (old + v)), rfl, hgs, hwc, rfl⟩
  · intro he
    have hx : led.get? e = none := List.get?_eq_none.mpr (by omega)
    unfold writeCell
    simp only [hx]
  · intro hs
    unfold writeCell
    cases hge : led.get? e with
    | none => rfl
    | some row =>
      have hrl : row.length = stepT := hrow row (List.get?_mem hge)
      have hx : row.get? s = none := List.get?_eq_none.mpr (by omega)
      simp only [hx]

/-- C10 witness: the in-bounds write on a concrete 100 × 2 ledger at episode 0,
step 1. -/
theorem ledger_write_inbounds_witness :
    ∃ row old led2,
      (List.replicate 100 (List.replicate 2 (0 : ℚ))).get? 0 = some row ∧
        row.get? 1 = some old ∧
        writeCell (List.replicate 100 (List.replicate 2 (0 : ℚ))) 0 1 1 =
          some led2 ∧
        led2 = (List.replicate 100 (List.replicate 2 (0 : ℚ))).set 0
          (row.set 1 (old + 1)) :=
  (ledger_write_inbounds (List.replicate 100 (List.replicate 2 (0 : ℚ))) 2 0 1 1
    (by simp) (fun row hr => by rw [List.eq_of_mem_replicate hr]; simp)).1
    (by norm_num) (by norm_num)

/-- One exported row of `recorder`: Environment ID, Episode Number, Step
Number, and the per-episode vector that lands in the Grasp Success column
(the source iterates `for success in episode`, so each entry is a whole
episode row of the ledger slab). -/
def Row : Type := ℕ × ℕ × ℕ × List ℚ

instance : DecidableEq Row := instDecidableEqProd

/-- Rows one world contributes to the export: its id, its episode number, the
running step index `0..` and the ledger slab entries, zipped positionally. -/
def env_rows (i e : ℕ) (slab : List (List ℚ)) : List Row :=
  slab.enum.map (fun p => (i, e, p.1, p.2))

/-- Flattening of the `data` dictionary built by `recorder`: environment ids,
episode numbers and per-world ledger slabs consumed in lockstep. -/
def recorder_rows : List ℕ → List ℕ → List (List (List ℚ)) → List Row
  | i :: is, e :: es, g :: gs => env_rows i e g ++ recorder_rows is es gs
  | _, _, _ => []

/-- The `recorder` export: return early when there are no environment ids or
`self.count` is zero; raise `ValueError` (modeled as `Except.error`) when the
column sources disagree in length; otherwise concatenate the freshly flattened
rows after the pre-existing store (`pd.concat` with the existing CSV; a missing
file is the empty store). -/
def recorder (count : ℕ) (ids epis : List ℕ) (gt : List (List (List ℚ)))
    (store : List Row) : Except String (List Row) :=
  if ids.length = 0 ∨ count = 0 then Except.ok store
  else if ids.length = epis.length ∧ epis.length = gt.length then
    Except.ok (store ++ recorder_rows ids epis gt)
  else Except.error "column length mismatch"

theorem recorder_appends (count : ℕ) (ids epis : List ℕ)
    (gt : List (List (List ℚ))) (st : List Row) (hid : ids ≠ [])
    (hc : count ≠ 0) (hlen : ids.length = epis.length ∧ epis.length = gt.length) :
    recorder count ids epis gt st = Except.ok (st ++ recorder_rows ids epis gt) := by
  have h0 : ¬(ids.length = 0 ∨ count = 0) := by
    rintro (h | h)
    · exact hid (List.length_eq_zero.mp h)
    · exact hc h
  unfold recorder
  rw [if_neg h0, if_pos hlen]

/-- C7 counterexample: exporting twice with nothing recorded in between
duplicates every row — here the single row `(0, 0, 0, [1])` appears twice in
the store after the second call, so the export is not idempotent. -/
theorem recorder_counterexample :
    recorder 1 [0] [0] [[[1]]] [] = Except.ok [(0, 0, 0, [1])] ∧
      recorder 1 [0] [0] [[[1]]] [(0, 0, 0, [1])] =
        Except.ok [(0, 0, 0, [1]), (0, 0, 0, [1])] ∧
      List.count ((0, 0, 0, [1]) : Row)
        [((0, 0, 0, [1]) : Row), (0, 0, 0, [1])] = 2 := by
  refine ⟨rfl, rfl, ?_⟩
  simp [List.count_cons]

/-- C7 amended: the export merges with any pre-existing store — the old rows
stay as a prefix and the freshly flattened rows are appended, never an
overwrite — but it is not idempotent: a second call with unchanged state (ids,
counters and ledger as before) appends the same flattened rows once more,
duplicating them. -/
theorem recorder_merge_not_idempotent (count : ℕ) (ids epis : List ℕ)
    (gt : List (List (List ℚ))) (store store2 : List Row) (hid : ids ≠ [])
    (hc : count ≠ 0)
    (hlen : ids.length = epis.length ∧ epis.length = gt.length)
    (h2 : recorder count ids epis gt store = Except.ok store2) :
    store2 = store ++ recorder_rows ids epis gt ∧
      recorder count ids epis gt store2 =
        Except.ok ((store ++ recorder_rows ids epis gt) ++
          recorder_rows ids epis gt) := by
  have h1 := recorder_appends count ids epis gt store hid hc hlen
  rw [h1] at h2
  obtain rfl : store ++ recorder_rows ids epis gt = store2 :=
    Except.ok.inj h2
  exact ⟨rfl, recorder_appends count ids epis gt _ hid hc hlen⟩

/-- C7 witness: the amended theorem at the concrete one-row export. -/
theorem recorder_merge_witness :
    ([((0 : ℕ), (0 : ℕ), (0 : ℕ), [(1 : ℚ)])] : List Row) =
        [] ++ recorder_rows [0] [0] [[[1]]] ∧
      recorder 1 [0] [0] [[[1]]] [((0 : ℕ), (0 : ℕ), (0 : ℕ), [(1 : ℚ)])] =
        Except.ok (([] ++ recorder_rows [0] [0] [[[1]]]) ++
          recorder_rows [0] [0] [[[1]]]) :=
  recorder_merge_not_idempotent 1 [0] [0] [[[1]]] []
    [((0 : ℕ), (0 : ℕ), (0 : ℕ), [(1 : ℚ)])]
    (by simp) (by simp) (by simp) rfl

/-- Everything per-world that the reset tick can touch: state-machine state and
timer, episode/step counters, the world's ledger slab, the robot joint state,
and the controller and scene states, the last two abstract numeric stand-ins
for the external controller and physics engine. -/
structure WorldFull where
  sm_state : Int
  sm_wait_time : ℚ
  epi : ℕ
  stp : ℕ
  recorder : List (List ℚ)
  joint_pos : List ℚ
  joint_vel : List ℚ
  controller : ℕ
  scene : ℕ
deriving Repr, DecidableEq

/-- The index selection `self.env_idx[self.sm_state == s]`. -/
def flagged (ws : List WorldFull) (s : Int) : List ℕ :=
  (ws.enum.filter (fun p => p.2.sm_state == s)).map Prod.fst

/-- One indexed write of `_reset_robot`: world `i` gets the initial joint state
`joint_pos_init[i]`, `joint_vel_init[i]` and a freshly reset controller. -/
def write_robot_reset (jp jv : ℕ → List ℚ) (ws : List WorldFull) (i : ℕ) :
    List WorldFull :=
  match ws.get? i with
  | none => ws
  | some w =>
    ws.set i { w with
      joint_pos := jp i
      joint_vel := jv i
      controller := 0 }

/-- `_reset_robot` issued for the id tensor `robot_reset_id`. -/
def reset_robot (jp jv : ℕ → List ℚ) (ids : List ℕ) (ws : List WorldFull) :
    List WorldFull :=
  ids.foldl (write_robot_reset jp jv) ws

/-- Modelled from the spec: `_reset_idx` is the environment-level reset of the
external `ManagerBasedRLEnv` base class, not among the available source files;
per the Reset Coordinator contract it re-randomizes the scene of exactly the
worlds whose ids it is given. -/
def write_env_reset (reseed : ℕ → ℕ) (ws : List WorldFull) (i : ℕ) :
    List WorldFull :=
  match ws.get? i with
  | none => ws
  | some w => ws.set i { w with scene := reseed i }

/-- The `_reset_idx(init_env_id)` call over the flagged ids. -/
def reset_idx (reseed : ℕ → ℕ) (ids : List ℕ) (ws : List WorldFull) :
    List WorldFull :=
  ids.foldl (write_env_reset reseed) ws

/-- `_summerize_and_reset`: collect the worlds flagged `INIT` and `INIT_ENV`
from the state machine, then reset the robot for the first set and the
environment for the second. -/
def summerize_and_reset (jp jv : ℕ → List ℚ) (reseed : ℕ → ℕ)
    (ws : List WorldFull) : List WorldFull :=
  let init_id := flagged ws (STATE_MACHINE "init")
  let init_env_id := flagged ws (STATE_MACHINE "init_env")
  reset_idx reseed init_env_id (reset_robot jp jv init_id ws)

theorem foldl_write_preserves (step : List WorldFull → ℕ → List WorldFull)
    (hstep : ∀ ws j i, i ≠ j → (step ws j).get? i = ws.get? i)
    (ids : List ℕ) : ∀ (ws : List WorldFull) (i : ℕ), i ∉ ids →
      (ids.foldl step ws).get? i = ws.get? i := by
  induction ids with
  | nil => intro ws i _; rfl
  | cons j t ih =>
    intro ws i hi
    have hij : i ≠ j := fun h => hi (h ▸ List.mem_cons_self j t)
    rw [List.foldl_cons, ih (step ws j) i (fun hmem => hi (List.mem_cons_of_mem _ hmem))]
    exact hstep ws j i hij

theorem write_robot_reset_preserves (jp jv : ℕ → List ℚ)
    (ws : List WorldFull) (j i : ℕ) (hij : i ≠ j) :
    (write_robot_reset jp jv ws j).get? i = ws.get? i := by
  unfold write_robot_reset
  cases h : ws.get? j with
  | none => rfl
  | some w => exact List.get?_set_ne _ _ (fun he => hij he.symm)

theorem write_env_reset_preserves (reseed : ℕ → ℕ)
    (ws : List WorldFull) (j i : ℕ) (hij : i ≠ j) :
    (write_env_reset reseed ws j).get? i = ws.get? i := by
  unfold write_env_reset
  cases h : ws.get? j with
  | none => rfl
  | some w => exact List.get?_set_ne _ _ (fun he => hij he.symm)

theorem not_mem_flagged (ws : List WorldFull) (s : Int) (i : ℕ) (w : WorldFull)
    (hw : ws.get? i = some w) (hs : w.sm_state ≠ s) : i ∉ flagged ws s := by
  intro hmem
  simp only [flagged, List.mem_map, List.mem_filter] at hmem
  obtain ⟨⟨j, w'⟩, ⟨hmem', hsst⟩, hfst⟩ := hmem
  simp only at hfst
  subst hfst
  have hw' : ws.get? j = some w' := by
    simpa using List.mk_mem_enum_iff_get?.mp hmem'
  rw [hw] at hw'
  obtain rfl : w = w' := Option.some.inj hw'
  exact hs (by simpa using hsst)

/-- C8: on a reset tick, every world that is neither flagged `INIT` nor
`INIT_ENV` keeps its whole record unchanged — discrete state, timer, ledger
slab, counters, joint state, controller and scene — while the flagged subsets
are reset. -/
theorem reset_isolation (jp jv : ℕ → List ℚ) (reseed : ℕ → ℕ)
    (ws : List WorldFull) (i : ℕ) (w : WorldFull) (hw : ws.get? i = some w)
    (h1 : w.sm_state ≠ STATE_MACHINE "init")
    (h2 : w.sm_state ≠ STATE_MACHINE "init_env") :
    (summerize_and_reset jp jv reseed ws).get? i = some w := by
  unfold summerize_and_reset reset_idx reset_robot
  rw [foldl_write_preserves _ (write_env_reset_preserves reseed) _ _ i
      (not_mem_flagged ws _ i w hw h2),
    foldl_write_preserves _ (write_robot_reset_preserves jp jv) _ _ i
      (not_mem_flagged ws _ i w hw h1)]
  exact hw

/-- World flagged `INIT` for the reset-isolation witness. -/
def wInit : WorldFull :=
  ⟨0, 0, 0, 0, [[0]], [0], [0], 7, 7⟩

/-- World in `CHOOSE_OBJECT`, untouched by the reset tick. -/
def wChoose : WorldFull :=
  ⟨3, 2, 1, 1, [[1]], [1], [1], 5, 5⟩

/-- C8 witness: resetting the batch `[wInit, wChoose]`, where only world 0 is
flagged, leaves world 1's record exactly as it was. -/
theorem reset_isolation_witness :
    (summerize_and_reset (fun _ => []) (fun _ => []) (fun _ => 9)
        [wInit, wChoose]).get? 1 = some wChoose :=
  reset_isolation (fun _ => []) (fun _ => []) (fun _ => 9) [wInit, wChoose] 1
    wChoose rfl (by decide) (by decide)

/-- Observation bundle `obs_buf["policy"]` as far as `get_grasp_pose_demo`
inspects it: the depth channel `distance_to_image_plane`, present or missing.
The other channels are either optional with `None` fallbacks or read after the
assertion, so the assertion concerns exactly this channel. -/
structure ObsData where
  distance_to_image_plane : Option (List ℚ)
deriving Repr, DecidableEq

/-- `get_grasp_pose_demo`: assert the depth channel is present (an
`AssertionError` with message `No depth image found` otherwise, modeled as
`Except.error`, aborting the whole call for every world at once), then save the
sensor data of each requested world and return `self.grasp_pose` unchanged. -/
def get_grasp_pose_demo (data : ObsData) (ids : List ℕ)
    (grasp_pose : List Pose) : Except String (List Pose × List ℕ) :=
  match data.distance_to_image_plane with
  | none => Except.error "No depth image found"
  | some _ => Except.ok (grasp_pose, ids)

/-- C9 counterexample: with the depth channel missing the whole call raises,
whichever worlds are requested — even a call affecting no world at all
(`ids = []`) fails the same way, so the failure is batch-global and not
contained to the affected world's tick, and nothing catches it. -/
theorem sensor_missing_counterexample :
    get_grasp_pose_demo (ObsData.mk none) [0] [poseId, poseId] =
        Except.error "No depth image found" ∧
      get_grasp_pose_demo (ObsData.mk none) [] [poseId, poseId] =
        Except.error "No depth image found" :=
  ⟨rfl, rfl⟩

/-- C9 amended: a missing depth channel makes the whole `get_grasp_pose_demo`
call fail through a batch-global assertion (`No depth image found`) affecting
every world at once, and no handler in the source holds previous values or
retries; when the channel is present the call succeeds and returns the held
`grasp_pose` unchanged. -/
theorem sensor_missing_spec (ids : List ℕ) (gp : List Pose) :
    (∀ x, get_grasp_pose_demo (ObsData.mk (some x)) ids gp =
        Except.ok (gp, ids)) ∧
      get_grasp_pose_demo (ObsData.mk none) ids gp =
        Except.error "No depth image found" :=
  ⟨fun _ => rfl, rfl⟩

end AirEnv
